import Mathlib

/-!
Verification development for the flub-agent travel-assistant repository.

The Python sources are shallowly embedded: Python functions become Lean
functions, Python exceptions become `Except PyExc`, dictionaries returned to
callers become structures or inductives, and the hosted LLM / HTTP providers
become explicit parameters describing their behaviour for one call.  String
manipulation performed by the Python code (`str.strip`, `str.upper`,
`str.split`, `int(...)`, regular-expression scans) is re-implemented over
`List Char`, modelling the CPython semantics on the ASCII inputs the program
manipulates.
-/

namespace Flub

/-- A raised Python exception.  `valueError` is kept separate because
`flight_search.search_flights` has a dedicated `except ValueError` clause. -/
inductive PyExc where
  | valueError (msg : String)
  | otherError (msg : String)
deriving Repr, DecidableEq

/-- `str(e)` for a caught exception: the message it carries. -/
def excMsg : PyExc → String
  | .valueError m => m
  | .otherError m => m

/-- The whitespace characters stripped by Python `str.strip()` (ASCII part). -/
def isSpaceChar (c : Char) : Bool :=
  c = ' ' || c = '\t' || c = '\n' || c = '\r' || c = '\x0b' || c = '\x0c'

/-- Python `str.upper()` on one character (ASCII range, which is all the
routing strings contain). -/
def pyToUpper (c : Char) : Char :=
  match c with
  | 'a' => 'A' | 'b' => 'B' | 'c' => 'C' | 'd' => 'D' | 'e' => 'E'
  | 'f' => 'F' | 'g' => 'G' | 'h' => 'H' | 'i' => 'I' | 'j' => 'J'
  | 'k' => 'K' | 'l' => 'L' | 'm' => 'M' | 'n' => 'N' | 'o' => 'O'
  | 'p' => 'P' | 'q' => 'Q' | 'r' => 'R' | 's' => 'S' | 't' => 'T'
  | 'u' => 'U' | 'v' => 'V' | 'w' => 'W' | 'x' => 'X' | 'y' => 'Y'
  | 'z' => 'Z' | other => other

/-- Python `str.upper()` over a character list. -/
def pyUpper (l : List Char) : List Char := l.map pyToUpper

/-- Python `str.lstrip()`. -/
def pyStripLeft (l : List Char) : List Char := l.dropWhile isSpaceChar

/-- Python `str.rstrip()`. -/
def pyStripRight : List Char → List Char
  | [] => []
  | c :: cs =>
    match pyStripRight cs with
    | [] => if isSpaceChar c then [] else [c]
    | r => c :: r

/-- Python `str.strip()`: whitespace removed from both ends. -/
def pyStrip (l : List Char) : List Char := pyStripLeft (pyStripRight l)

/-- Python `str.split(sep)` for a one-character separator.
`"".split(",") = [""]`, and separators at either end produce empty tokens. -/
def pySplit (sep : Char) : List Char → List (List Char)
  | [] => [[]]
  | c :: cs =>
    if c = sep then [] :: pySplit sep cs
    else
      match pySplit sep cs with
      | t :: ts => (c :: t) :: ts
      | [] => [[c]]

/-- Numeric value of a digit run. -/
def digitsToNat (l : List Char) : Nat :=
  l.foldl (fun n c => 10 * n + (c.toNat - 48)) 0

/-- Validity of the digit part accepted by Python `int(...)`: nonempty,
digits with single underscores strictly between digits. -/
def pyIntDigitsOk (l : List Char) : Bool :=
  !l.isEmpty
  && (l.head?.elim false Char.isDigit)
  && (l.getLast?.elim false Char.isDigit)
  && l.all (fun c => c.isDigit || c = '_')
  && (l.zip l.tail).all (fun p => !(p.1 = '_' && p.2 = '_'))

/-- Python `int(s)`: strip whitespace, optional sign, digit run.  `none`
models the `ValueError` that `int` raises on malformed input. -/
def pyInt? (l : List Char) : Option Int :=
  match pyStrip l with
  | '+' :: rest => if pyIntDigitsOk rest then some (digitsToNat (rest.filter (· ≠ '_'))) else none
  | '-' :: rest => if pyIntDigitsOk rest then some (-(digitsToNat (rest.filter (· ≠ '_')) : Int)) else none
  | rest => if pyIntDigitsOk rest then some (digitsToNat (rest.filter (· ≠ '_'))) else none

/-- Python `int(s)` as a fallible computation (raises `ValueError`). -/
def int_of_string (l : List Char) : Except PyExc Int :=
  match pyInt? l with
  | some n => .ok n
  | none => .error (.valueError ("invalid literal for int() with base 10: " ++ l.asString))

/-- Python `str.replace(old, "")` for a one-character `old`. -/
def removeChar (c : Char) (l : List Char) : List Char := l.filter (· ≠ c)

/-- Does `pat` occur at the head of `l`? -/
def startsWithChars (pat l : List Char) : Bool := decide (l.take pat.length = pat)

/-- One attempt of the regex `(\d+)\s*UNIT` at the current position. -/
def matchNumUnit (unit l : List Char) : Option Nat :=
  let ds := l.takeWhile Char.isDigit
  if ds.isEmpty then none
  else
    let rest := (l.drop ds.length).dropWhile isSpaceChar
    if startsWithChars unit rest then some (digitsToNat ds) else none

/-- `re.search` for the pattern `(\d+)\s*UNIT`: leftmost match wins. -/
def reSearchNumUnit (unit : List Char) : List Char → Option Nat
  | [] => none
  | c :: cs =>
    match matchNumUnit unit (c :: cs) with
    | some n => some n
    | none => reSearchNumUnit unit cs

/-- Python `round` half-to-even on a rational. -/
def roundHalfEven (q : ℚ) : ℤ :=
  let f := ⌊q⌋
  let r := q - (f : ℚ)
  if r < 1/2 then f
  else if 1/2 < r then f + 1
  else if f % 2 = 0 then f else f + 1

/-- Python `round(x, 2)`. -/
def pyRound2 (q : ℚ) : ℚ := (roundHalfEven (q * 100) : ℚ) / 100

/-- Python `min(list)`: raises on an empty sequence. -/
def pyMin (l : List Int) : Except PyExc Int :=
  match l with
  | [] => .error (.valueError "min() arg is an empty sequence")
  | x :: xs => .ok (xs.foldl min x)

/-- Python `max(list)`: raises on an empty sequence. -/
def pyMax (l : List Int) : Except PyExc Int :=
  match l with
  | [] => .error (.valueError "max() arg is an empty sequence")
  | x :: xs => .ok (xs.foldl max x)

/-- Python division: raises `ZeroDivisionError` on a zero denominator. -/
def pyDiv (a b : ℚ) : Except PyExc ℚ :=
  if b = 0 then .error (.otherError "division by zero") else .ok (a / b)

/-- Python `max(xs, key=k)`: first element attaining the maximal key. -/
def maxByFirst {α : Type} (k : α → Nat) : List α → Option α
  | [] => none
  | x :: xs => some (xs.foldl (fun b a => if k b < k a then a else b) x)

/-- Python `min(xs, key=k)`: first element attaining the minimal key. -/
def minByFirst {α : Type} (k : α → Int) : List α → Option α
  | [] => none
  | x :: xs => some (xs.foldl (fun b a => if k a < k b then a else b) x)

/-- `"sep".join(xs)`. -/
def joinSep (sep : String) : List String → String
  | [] => ""
  | x :: xs => xs.foldl (fun acc y => acc ++ sep ++ y) x

/-- `str.upper()` at the `String` boundary. -/
def pyUpperStr (s : String) : String := (pyUpper s.toList).asString

/-- Apply `f` to the last token of a token list (helper for relating
`pySplit` to right-stripping). -/
def modifyLastTok (f : List Char → List Char) : List (List Char) → List (List Char)
  | [] => []
  | [t] => [f t]
  | t :: ts => t :: modifyLastTok f ts

namespace FlightSearch

/-- One offer from the `fast_flights` provider (`src/tools/flight_search.py`).
`price` and `duration` are the raw provider strings; `stops` is an `Int` as in
the provider payload.  The optional attributes read with `getattr`
(`departure_time_ahead`, `arrival_time_ahead`, `delay`) are not modelled. -/
structure Flight where
  name : String
  departure : String
  arrival : String
  duration : String
  stops : Int
  price : String
  is_best : Bool
deriving Repr, DecidableEq

/-- `parse_price`: strip `$` and `,`, then `int(...)`; the bare `except`
returns `0` on any failure. -/
def parse_price (price_str : String) : Int :=
  match int_of_string (removeChar ',' (removeChar '$' price_str.toList)) with
  | .ok n => n
  | .error _ => 0

/-- `parse_duration`: regex scans for `(\d+)\s*hr` and `(\d+)\s*min`;
missing groups contribute `0`. -/
def parse_duration (duration_str : String) : Int :=
  let hours := (reSearchNumUnit "hr".toList duration_str.toList).getD 0
  let minutes := (reSearchNumUnit "min".toList duration_str.toList).getD 0
  (hours : Int) * 60 + (minutes : Int)

/-- The dictionary returned by `calculate_price_range`. -/
structure PriceRange where
  min : Int
  max : Int
  average : ℚ
deriving Repr, DecidableEq

/-- `calculate_price_range`, with the fallible steps (`min`, `max`, the
division by `len(flights)`) made explicit so that raising is observable. -/
def calculate_price_range (flights : List Flight) : Except PyExc PriceRange :=
  if flights.isEmpty then .ok ⟨0, 0, 0⟩
  else do
    let prices := flights.map (fun f => parse_price f.price)
    let mn ← pyMin prices
    let mx ← pyMax prices
    let avg ← pyDiv ((prices.sum : ℚ)) ((flights.length : ℚ))
    .ok ⟨mn, mx, pyRound2 avg⟩

/-- Leap-year rule used by `datetime`. -/
def isLeapYear (y : Nat) : Bool :=
  y % 4 = 0 && (y % 100 ≠ 0 || y % 400 = 0)

/-- Days in a month, for `datetime.strptime` calendar validation. -/
def daysInMonth (y m : Nat) : Nat :=
  if m = 2 then (if isLeapYear y then 29 else 28)
  else if m = 4 || m = 6 || m = 9 || m = 11 then 30
  else 31

/-- Modelled from `datetime.strptime(date, "%Y-%m-%d")`: three dash-separated
digit runs forming a valid calendar date; a failing check raises
`ValueError`. -/
def strptimeOk (date : String) : Bool :=
  match pySplit '-' date.toList with
  | [y, m, d] =>
    !y.isEmpty && !m.isEmpty && !d.isEmpty
    && y.all Char.isDigit && m.all Char.isDigit && d.all Char.isDigit
    && y.length ≤ 4 && m.length ≤ 2 && d.length ≤ 2
    && 1 ≤ digitsToNat m && digitsToNat m ≤ 12
    && 1 ≤ digitsToNat d && digitsToNat d ≤ daysInMonth (digitsToNat y) (digitsToNat m)
  | _ => false

/-- One formatted entry of the `flights` list in the `search_flights`
response. -/
structure FormattedFlight where
  rank : Nat
  name : String
  departure : String
  arrival : String
  duration : String
  stops : Int
  price : String
  is_best : Bool
deriving Repr, DecidableEq

/-- The success payload of `search_flights`. -/
structure SearchPayload where
  date : String
  from_airport : String
  to_airport : String
  current_price_indicator : String
  price_range : PriceRange
  total_flights : Nat
  flights_returned : Nat
  flights : List FormattedFlight
deriving Repr, DecidableEq

/-- The envelope every flight tool returns: `success: true` with a payload or
`success: false` with an error string. -/
inductive SearchResult where
  | success (payload : SearchPayload)
  | failure (error : String)
deriving Repr, DecidableEq

/-- The body of `search_flights` inside its `try`: date validation, provider
call (`get_flights`, modelled as the `provider` parameter, yielding the offer
list and `current_price`), then response formatting. -/
def search_flights_body (date from_airport to_airport : String)
    (provider : Except PyExc (List Flight × String)) (max_results : Nat) :
    Except PyExc SearchPayload := do
  if strptimeOk date then pure () else
    throw (.valueError ("time data " ++ date ++ " does not match format %Y-%m-%d"))
  let (flights, current_price) ← provider
  let flights_list := (flights.take max_results).enum.map (fun p =>
    FormattedFlight.mk (p.1 + 1) p.2.name p.2.departure p.2.arrival
      p.2.duration p.2.stops p.2.price p.2.is_best)
  let price_range ← calculate_price_range flights
  pure ⟨date, pyUpperStr from_airport, pyUpperStr to_airport, current_price,
    price_range, flights.length, flights_list.length, flights_list⟩

/-- The message produced by the two `except` clauses of `search_flights`. -/
def searchErrMsg : PyExc → String
  | .valueError m => "Invalid date format. Use YYYY-MM-DD: " ++ m
  | .otherError m => "Flight search failed: " ++ m

/-- `search_flights`: the body wrapped by `except ValueError` /
`except Exception`, both of which return the error envelope. -/
def search_flights (date from_airport to_airport : String)
    (provider : Except PyExc (List Flight × String)) (max_results : Nat) :
    SearchResult :=
  match search_flights_body date from_airport to_airport provider max_results with
  | .ok payload => .success payload
  | .error e => .failure (searchErrMsg e)

/-- Python `str <= int` comparison: always a `TypeError`.  This is what
`filter_flights_by_criteria` evaluates for its price and duration filters,
`f.price` and `f.duration` being the raw provider strings. -/
def strLeInt (_s : String) (_n : Int) : Except PyExc Bool :=
  .error (.otherError "TypeError: unsupported comparison between str and int")

/-- A Python list comprehension whose predicate may raise. -/
def filterE {α : Type} (p : α → Except PyExc Bool) : List α → Except PyExc (List α)
  | [] => .ok []
  | x :: xs => do
    let b ← p x
    let rest ← filterE p xs
    .ok (if b then x :: rest else rest)

/-- The dictionary returned by `filter_flights_by_criteria`. -/
inductive FilterResult where
  | success (flights : List Flight) (total_flights_searched : Nat)
  | failure (error : String)
deriving Repr, DecidableEq

/-- The body of `filter_flights_by_criteria` inside its `try`: provider call,
empty-result guard, then the four conditional filters exactly as written in
the source (where the price and duration comparisons are `str <= int`). -/
def filter_flights_body (provider : Except PyExc (List Flight))
    (max_price max_duration max_stops : Option Int) (direct_only : Bool) :
    Except PyExc FilterResult := do
  let flights ← provider
  if flights.isEmpty then pure (.failure "No flights found")
  else do
    let f1 ← match max_price with
      | some p => filterE (fun f => strLeInt f.price p) flights
      | none => pure flights
    let f2 ← match max_duration with
      | some d => filterE (fun f => strLeInt f.duration d) f1
      | none => pure f1
    let f3 := match max_stops with
      | some s => f2.filter (fun f => decide (f.stops ≤ s))
      | none => f2
    let f4 := if direct_only then f3.filter (fun f => decide (f.stops = 0)) else f3
    pure (.success f4 flights.length)

/-- `filter_flights_by_criteria`: body wrapped by `except Exception`. -/
def filter_flights_by_criteria (provider : Except PyExc (List Flight))
    (max_price max_duration max_stops : Option Int) (direct_only : Bool) :
    FilterResult :=
  match filter_flights_body provider max_price max_duration max_stops direct_only with
  | .ok r => r
  | .error e => .failure ("Flight filtering failed: " ++ excMsg e)

/-- The filter the claim describes: the conjunction of the optional
predicates, price and duration compared through `parse_price` and
`parse_duration`.  (Spec side, for comparison with the source function.) -/
def filter_flights_claim (flights : List Flight)
    (max_price max_duration max_stops : Option Int) (direct_only : Bool) :
    List Flight :=
  flights.filter (fun f =>
    (max_price.elim true (fun p => decide (parse_price f.price ≤ p)))
    && (max_duration.elim true (fun d => decide (parse_duration f.duration ≤ d)))
    && (max_stops.elim true (fun s => decide (f.stops ≤ s)))
    && (!direct_only || decide (f.stops = 0)))

end FlightSearch

namespace XApi

/-- One reshaped tweet as built by `search_topics` / `search_user_tweets`
(`src/tools/x_api.py`): engagement counts plus an optional author pair. -/
structure Tweet where
  id : Nat
  text : String
  created_at : String
  author : Option (String × String)
  likes : Nat
  retweets : Nat
  replies : Nat
deriving Repr, DecidableEq

/-- The dictionary returned by `search_topics`. -/
inductive TopicsResult where
  | success (query : String) (tweets : List Tweet) (count : Nat) (message : Option String)
  | failure (error : String)
deriving Repr, DecidableEq

/-- The message of the `ValueError` raised by `get_twitter_client` when no
bearer token is configured. -/
def bearerTokenMsg : String :=
  "X_BEARER_TOKEN environment variable is required. Please set it with your Twitter API Bearer Token."

/-- `get_twitter_client`: raises when `X_BEARER_TOKEN` is unset or empty. -/
def get_twitter_client (bearer : Option String) : Except PyExc Unit :=
  match bearer with
  | none => .error (.valueError bearerTokenMsg)
  | some b => if b = "" then .error (.valueError bearerTokenMsg) else .ok ()

/-- The body of `search_topics` inside its `try`: client construction, the
provider call (`search_recent_tweets`, modelled as `provider` and already
reshaped to `Tweet`s), then the falsy check on `tweets.data` — an empty or
missing result list yields the zero-match success envelope. -/
def search_topics_body (bearer : Option String)
    (provider : Except PyExc (List Tweet)) (query : String) :
    Except PyExc TopicsResult := do
  let () ← get_twitter_client bearer
  let tweets ← provider
  if tweets.isEmpty then
    pure (.success query [] 0 (some "No tweets found matching the query"))
  else
    pure (.success query tweets tweets.length none)

/-- `search_topics`: body wrapped by `except Exception`, which returns the
error envelope with `str(e)`. -/
def search_topics (bearer : Option String)
    (provider : Except PyExc (List Tweet)) (query : String) : TopicsResult :=
  match search_topics_body bearer provider query with
  | .ok r => r
  | .error e => .failure (excMsg e)

/-- The input dictionary of `analyze_tweet_sentiment` as read through
`tweets_data.get(...)`: a `success` flag and an optional `tweets` list
(`none` models a missing key, as in the failure envelopes of the search
tools). -/
structure TweetsData where
  success : Bool
  tweets : Option (List Tweet)
  query : Option String
deriving Repr, DecidableEq

/-- The dictionary a `TopicsResult` presents to `dict.get`: a failure
envelope has `success = False` and no `tweets` key. -/
def toTweetsData : TopicsResult → TweetsData
  | .success q t _ _ => ⟨true, some t, some q⟩
  | .failure _ => ⟨false, none, none⟩

/-- Python falsiness of `tweets_data.get("tweets")`: missing key or empty
list. -/
def tweetsFalsy : Option (List Tweet) → Bool
  | none => true
  | some l => l.isEmpty

/-- The `top_engaged_tweet` sub-dictionary. -/
structure TopTweet where
  text : String
  likes : Nat
  retweets : Nat
  author : Option (String × String)
deriving Repr, DecidableEq

/-- The success payload of `analyze_tweet_sentiment`. -/
structure AnalysisPayload where
  query : Option String
  total_tweets : Nat
  total_likes : Nat
  total_retweets : Nat
  total_replies : Nat
  avg_likes : ℚ
  avg_retweets : ℚ
  avg_replies : ℚ
  top_engaged_tweet : Option TopTweet
deriving Repr, DecidableEq

/-- The dictionary returned by `analyze_tweet_sentiment`. -/
inductive AnalysisResult where
  | success (payload : AnalysisPayload)
  | failure (error : String)
deriving Repr, DecidableEq

/-- `analyze_tweet_sentiment`: rejects inputs whose `success` flag is falsy
or whose `tweets` entry is missing or empty, otherwise aggregates engagement
metrics (averages guarded by `total_tweets > 0`, top tweet = first at the
maximum of likes + retweets). -/
def analyze_tweet_sentiment (d : TweetsData) : AnalysisResult :=
  if !d.success || tweetsFalsy d.tweets then
    .failure "No valid tweets data provided"
  else
    let tweets := d.tweets.getD []
    let total_tweets := tweets.length
    let total_likes := (tweets.map Tweet.likes).sum
    let total_retweets := (tweets.map Tweet.retweets).sum
    let total_replies := (tweets.map Tweet.replies).sum
    let avg_likes := if total_tweets > 0 then pyRound2 ((total_likes : ℚ) / (total_tweets : ℚ)) else 0
    let avg_retweets := if total_tweets > 0 then pyRound2 ((total_retweets : ℚ) / (total_tweets : ℚ)) else 0
    let avg_replies := if total_tweets > 0 then pyRound2 ((total_replies : ℚ) / (total_tweets : ℚ)) else 0
    let top := maxByFirst (fun t => t.likes + t.retweets) tweets
    .success ⟨d.query, total_tweets, total_likes, total_retweets, total_replies,
      avg_likes, avg_retweets, avg_replies,
      top.map (fun t => ⟨t.text, t.likes, t.retweets, t.author⟩)⟩

end XApi

namespace Weather

/-- `check_weather` (`src/tools/weather.py`): raises `ValueError` when
`WEATHER_API_KEY` is unset or empty, performs the HTTP request (modelled as
`resp`: a raised exception or a status code with the JSON payload), raises
via `raise_for_status` on a 4xx/5xx status, and otherwise returns the raw
provider payload.  There is no `try`/`except` and no success/error envelope:
every failure propagates to the caller. -/
def check_weather (api_key : Option String)
    (resp : Except PyExc (Nat × String)) : Except PyExc String := do
  match api_key with
  | none => throw (.valueError "WEATHER_API_KEY environment variable is not set")
  | some k =>
    if k = "" then throw (.valueError "WEATHER_API_KEY environment variable is not set")
    else do
      let (status, payload) ← resp
      if 400 ≤ status then
        throw (.otherError ("HTTP error " ++ toString status ++ " for url"))
      else
        pure payload

end Weather

namespace Orchestrator

/-- One conversation turn, `{"role": ..., "content": ...}`. -/
structure Turn where
  role : String
  content : String
deriving Repr, DecidableEq

/-- The keys of the `worker_map` in `OrchestratorAgent.route_message`. -/
def worker_names : List String := ["WORKER1", "WORKER2", "WORKER3"]

/-- The behaviour of the hosted LLM and the workers for one
`route_message` call: each field is the outcome of the corresponding
awaited call (`Except.error` models a raised exception). -/
structure RouteEnv where
  classify : Except String String
  workerProcess : String → String → String → Except String String
  synthesize : String → String → List String → Except String String
  fallback : String → String → Except String String

/-- `_get_conversation_context`: last `max_messages` turns rendered as
`ROLE: content` lines, or the sentinel when there is no history. -/
def get_conversation_context (history : List Turn) (max_messages : Nat) : String :=
  let recent := if history.length > max_messages
    then history.drop (history.length - max_messages) else history
  if recent.isEmpty then "No previous conversation."
  else joinSep "\n" (recent.map (fun t => pyUpperStr t.role ++ ": " ++ t.content))

/-- The parse of the routing classification output in `route_message`:
`final_output.strip().upper()`, split on commas, each token stripped, kept
when it is a `worker_map` key. -/
def parse_worker_choice (out : String) : List String :=
  let tokens := (pySplit ',' (pyUpper (pyStrip out.toList))).map (fun t => (pyStrip t).asString)
  tokens.filter (fun w => worker_names.contains w)

/-- The parse as the spec describes it: upper-case, split on commas, trim
each token, filter to known worker names.  (Spec side, for comparison with
the parse the source performs.) -/
def claim_parse (out : String) : List String :=
  let tokens := (pySplit ',' (pyUpper out.toList)).map (fun t => (pyStrip t).asString)
  tokens.filter (fun w => worker_names.contains w)

/-- `_fallback_response`: one completion, its own `except` turning a raised
exception into a textual apology. -/
def fallback_response (env : RouteEnv) (message ctx : String) : String :=
  match env.fallback message ctx with
  | .ok s => s
  | .error e => "I encountered an error while processing your request: " ++ e

/-- The `"name: result"` / `"name: Error - msg"` line built for each worker
of a parallel batch from the `asyncio.gather(..., return_exceptions=True)`
results. -/
def render_output (name : String) (r : Except String String) : String :=
  match r with
  | .ok s => name ++ ": " ++ s
  | .error e => name ++ ": Error - " ++ e

/-- The `worker_outputs` list of `_process_parallel`: every selected worker
is dispatched and rendered, failures included. -/
def workerOutputs (env : RouteEnv) (message ctx : String) (names : List String) : List String :=
  names.map (fun n => render_output n (env.workerProcess n message ctx))

/-- `_process_parallel`: gather all workers, render their outcomes, run the
synthesis completion; if synthesis raises, return the concatenated outputs
behind a count message (or an error text when no outputs were collected). -/
def process_parallel (env : RouteEnv) (message ctx : String) (names : List String) : String :=
  let outputs := workerOutputs env message ctx names
  match env.synthesize message ctx outputs with
  | .ok s => s
  | .error e =>
    if outputs.isEmpty then "Error processing with multiple workers: " ++ e
    else "Processed with " ++ toString names.length ++ " workers. Results:\n\n"
      ++ joinSep "\n\n" outputs

/-- `route_message`: append the user turn, build the context, classify,
dispatch on the number of valid worker names (zero → fallback, one → that
worker, several → parallel + synthesis); a raised exception anywhere in the
`try` falls back; the response is appended as the assistant turn and
returned. -/
def route_message (env : RouteEnv) (history : List Turn) (message : String) :
    String × List Turn :=
  let h1 := history ++ [⟨"user", message⟩]
  let ctx := get_conversation_context h1 10
  let tryResult : Except String String :=
    match env.classify with
    | .error e => .error e
    | .ok out =>
      match parse_worker_choice out with
      | [] => .ok (fallback_response env message ctx)
      | [w] => env.workerProcess w message ctx
      | ws => .ok (process_parallel env message ctx ws)
  match tryResult with
  | .ok response => (response, h1 ++ [⟨"assistant", response⟩])
  | .error _ =>
    let response := fallback_response env message ctx
    (response, h1 ++ [⟨"assistant", response⟩])

/-- The conversation context a dispatch sees: `route_message` first appends
the user turn and then calls `_get_conversation_context()` (default window of
10 turns). -/
def contextAfter (history : List Turn) (message : String) : String :=
  get_conversation_context (history ++ [⟨"user", message⟩]) 10

/-- The input string built by `BaseWorker.process` from its persona template,
the optional context block and the user message. -/
def build_worker_input (worker_name message : String) (conversation_context : Option String) : String :=
  let system_prompt := "You are " ++ worker_name ++ ", a specialized worker agent. Use the available MCP tools to help the user with their request. Provide a helpful and detailed response."
  let context_section := match conversation_context with
    | some c => "\n\nPrevious conversation context:\n" ++ c
    | none => ""
  system_prompt ++ context_section
    ++ "\n\nCurrent user request: " ++ message
    ++ "\n\nUse your available tools to provide a comprehensive response that considers the conversation context if provided."

/-- `BaseWorker.process` (`src/workers/base_worker.py`): one completion over
the enhanced input; its `except` turns any raised exception into a textual
error response, so the caller always receives a string. -/
def worker_process (worker_name : String) (runner : String → Except String String)
    (message : String) (conversation_context : Option String) : String :=
  match runner (build_worker_input worker_name message conversation_context) with
  | .ok result => result
  | .error e => "Error processing request in " ++ worker_name ++ ": " ++ e

end Orchestrator

namespace SimpleAgent

/-- One content block of a completion response (`src/simple_agent.py`):
text, or a tool-use request carrying a correlation id, a tool name and its
input (kept abstract as a string). -/
inductive Block where
  | text (s : String)
  | toolUse (id : String) (name : String) (input : String)
deriving Repr, DecidableEq

/-- The content of one history entry: a plain string, the raw block list of
an assistant tool-use response, or a list of tool results keyed by
correlation id. -/
inductive HContent where
  | str (s : String)
  | blocks (bs : List Block)
  | toolResults (rs : List (String × String))
deriving Repr, DecidableEq

/-- One entry of `SimpleFlubAgent.conversation_history`. -/
structure HTurn where
  role : String
  content : HContent
deriving Repr, DecidableEq

/-- The outcome of one `client.messages.create` call: a raised exception, a
final response (`stop_reason` not `tool_use`), or a tool-use response. -/
inductive CompletionStep where
  | raise (msg : String)
  | final (blocks : List Block)
  | toolCall (blocks : List Block)
deriving Repr, DecidableEq

/-- The final text extraction: concatenation of the text blocks. -/
def concatTexts (blocks : List Block) : String :=
  blocks.foldl (fun acc b => match b with | .text s => acc ++ s | _ => acc) ""

/-- The tool results built for the tool-use blocks of one response; a tool
call that raises propagates (to be caught by the outer `try`). -/
def collectResults (callTool : String → String → Except String String) :
    List Block → Except String (List (String × String))
  | [] => .ok []
  | .text _ :: bs => collectResults callTool bs
  | .toolUse id name input :: bs => do
    let r ← callTool name input
    let rest ← collectResults callTool bs
    .ok ((id, r) :: rest)

/-- The completion / tool loop of `SimpleFlubAgent.process`, driven by the
scripted sequence of completion outcomes: a tool-use response appends the
assistant blocks and the tool results to the history and re-prompts; a final
response appends the extracted text.  The returned pair carries the history
as accumulated when the loop ends or an exception is raised —
`self.conversation_history` is mutated in place, so the two appends of every
completed tool round persist past a later raise, while a tool call that
raises does so before its own round's appends.  An exhausted script models a
completion call that never returns normally and is treated as a raised
exception. -/
def runLoop (callTool : String → String → Except String String) :
    List CompletionStep → List HTurn → Except String String × List HTurn
  | [], h => (.error "completion unavailable", h)
  | step :: rest, h =>
    match step with
    | .raise m => (.error m, h)
    | .final blocks =>
      let final_text := concatTexts blocks
      (.ok final_text, h ++ [⟨"assistant", .str final_text⟩])
    | .toolCall blocks =>
      match collectResults callTool blocks with
      | .error e => (.error e, h)
      | .ok results =>
        runLoop callTool rest (h ++ [⟨"assistant", .blocks blocks⟩, ⟨"user", .toolResults results⟩])

/-- `SimpleFlubAgent.process`: append the user turn, run the completion/tool
loop inside `try`; on success the final text has been appended as an
assistant turn and is returned; a raised exception is converted to an error
text returned with the history left as the loop had mutated it (the `except`
clause rolls nothing back and appends nothing). -/
def simple_process (completions : List CompletionStep)
    (callTool : String → String → Except String String)
    (history : List HTurn) (message : String) : String × List HTurn :=
  let h1 := history ++ [⟨"user", .str message⟩]
  match runLoop callTool completions h1 with
  | (.ok text, h2) => (text, h2)
  | (.error e, h2) => ("Error processing request: " ++ e, h2)

end SimpleAgent

namespace Server

open SimpleAgent

/-- The server state (`agent_server.py`): the `agents` dictionary mapping
each sender to its agent, here represented by the agent's conversation
history, in insertion order. -/
def ServerState := List (String × List HTurn)

instance : DecidableEq ServerState := by
  unfold ServerState
  infer_instance

/-- Dictionary lookup in `agents`. -/
def findAgent (st : ServerState) (sender : String) : Option (List HTurn) :=
  match st with
  | [] => none
  | (s, h) :: rest => if s = sender then some h else findAgent rest sender

/-- Dictionary update: replace the sender entry if present, else append
(dict insertion order). -/
def setAgent (st : ServerState) (sender : String) (h : List HTurn) : ServerState :=
  match st with
  | [] => [(sender, h)]
  | (s, h0) :: rest =>
    if s = sender then (s, h) :: rest else (s, h0) :: setAgent rest sender h

/-- A JSON response of the server: HTTP status plus the envelope fields. -/
structure ApiResponse where
  status : Nat
  success : Bool
  response : Option String
  message : Option String
  error : Option String
deriving Repr, DecidableEq

/-- Python falsiness of `data.get(field)` for a string field. -/
def falsyStr : Option String → Bool
  | none => true
  | some s => s = ""

/-- The `/query` handler: validate both fields, create the agent for the
sender on first contact, run `SimpleFlubAgent.process` (its completion
behaviour passed as `completions`/`callTool`), store the mutated history and
answer `success: true` with the response string. -/
def query (completions : List CompletionStep)
    (callTool : String → String → Except String String)
    (st : ServerState) (sender q : Option String) : ApiResponse × ServerState :=
  if falsyStr sender || falsyStr q then
    (⟨400, false, none, none, some "Both sender and query are required"⟩, st)
  else
    let s := sender.getD ""
    let h := (findAgent st s).getD []
    let (resp, h2) := simple_process completions callTool h (q.getD "")
    (⟨200, true, some resp, none, none⟩, setAgent st s h2)

/-- The `/clear` handler: validate the sender; when an agent exists, empty
its history (`clear_history`) but keep the `agents` entry; otherwise report
that no history was found.  The state never loses an entry. -/
def clear_history (st : ServerState) (sender : Option String) : ApiResponse × ServerState :=
  if falsyStr sender then
    (⟨400, false, none, none, some "sender is required"⟩, st)
  else
    let s := sender.getD ""
    match findAgent st s with
    | some _ => (⟨200, true, none, some "History cleared", none⟩, setAgent st s [])
    | none => (⟨200, true, none, some "No history found", none⟩, st)

/-- The `/health` handler: `active_conversations` is `len(agents)`. -/
def health (st : ServerState) : Nat := st.length

/-- The count the claim describes: distinct senders that currently have at
least one recorded conversation turn.  (Spec side, for comparison with what
`health` reports.) -/
def activeWithTurns (st : ServerState) : Nat :=
  (st.filter (fun p => !p.2.isEmpty)).length

end Server

end Flub

namespace Flub

/-! ## Lemmas about the Python string model

The routing parse in the source is `strip` → `upper` → `split(",")` →
per-token `strip` → filter; the spec describes it without the initial
whole-string strip.  The lemmas below show the two agree: upper-casing
commutes with stripping and splitting, and stripping the whole string before
splitting only changes the first and last tokens by whitespace that their own
strip removes anyway. -/

theorem pySplit_ne_nil (sep : Char) (l : List Char) : pySplit sep l ≠ [] := by
  induction l with
  | nil => simp [pySplit]
  | cons c cs ih =>
    simp only [pySplit]
    split
    · simp
    · cases hcs : pySplit sep cs with
      | nil => exact absurd hcs ih
      | cons t ts => simp [hcs]

theorem isSpaceChar_pyToUpper (c : Char) : isSpaceChar (pyToUpper c) = isSpaceChar c := by
  unfold pyToUpper
  split <;> rfl

theorem pyToUpper_eq_comma_iff (c : Char) : pyToUpper c = ',' ↔ c = ',' := by
  unfold pyToUpper
  split <;> simp_all

theorem ne_comma_of_isSpaceChar (c : Char) (h : isSpaceChar c = true) : ¬ c = ',' := by
  intro hc
  subst hc
  simp [isSpaceChar] at h

theorem pyStripLeft_pyUpper (l : List Char) :
    pyStripLeft (pyUpper l) = pyUpper (pyStripLeft l) := by
  induction l with
  | nil => rfl
  | cons c cs ih =>
    simp only [pyUpper, List.map_cons, pyStripLeft, List.dropWhile_cons] at *
    rw [isSpaceChar_pyToUpper]
    by_cases h : isSpaceChar c
    · simp only [h, if_true]
      exact ih
    · simp [h]

theorem pyStripRight_pyUpper (l : List Char) :
    pyStripRight (pyUpper l) = pyUpper (pyStripRight l) := by
  induction l with
  | nil => rfl
  | cons c cs ih =>
    simp only [pyUpper, List.map_cons, pyStripRight] at *
    rw [ih]
    cases h : pyStripRight cs with
    | nil =>
      simp only [h, pyUpper, List.map_nil, isSpaceChar_pyToUpper]
      by_cases hsp : isSpaceChar c <;> simp [hsp]
    | cons r rs => simp [h, pyUpper]

theorem pyStrip_pyUpper (l : List Char) : pyStrip (pyUpper l) = pyUpper (pyStrip l) := by
  unfold pyStrip
  rw [pyStripRight_pyUpper, pyStripLeft_pyUpper]

theorem pySplit_pyUpper (l : List Char) :
    pySplit ',' (pyUpper l) = (pySplit ',' l).map pyUpper := by
  simp only [pyUpper]
  induction l with
  | nil => rfl
  | cons c cs ih =>
    simp only [List.map_cons, pySplit]
    by_cases h : c = ','
    · rw [if_pos ((pyToUpper_eq_comma_iff c).mpr h), if_pos h]
      simp only [List.map_cons]
      rw [ih]
      rfl
    · rw [if_neg (fun hc => h ((pyToUpper_eq_comma_iff c).mp hc)), if_neg h]
      cases hcs : pySplit ',' cs with
      | nil => exact absurd hcs (pySplit_ne_nil ',' cs)
      | cons t ts =>
        rw [ih, hcs]
        simp [pyUpper]

theorem pyStripLeft_eq_nil_of_all (l : List Char) (h : l.all isSpaceChar = true) :
    pyStripLeft l = [] := by
  induction l with
  | nil => rfl
  | cons c cs ih =>
    simp only [List.all_cons, Bool.and_eq_true] at h
    simp only [pyStripLeft, List.dropWhile_cons, h.1, if_true]
    exact ih h.2

theorem pyStripRight_eq_nil_iff (l : List Char) :
    pyStripRight l = [] ↔ l.all isSpaceChar = true := by
  induction l with
  | nil => simp [pyStripRight]
  | cons c cs ih =>
    simp only [pyStripRight, List.all_cons, Bool.and_eq_true]
    cases h : pyStripRight cs with
    | nil =>
      have hcs : cs.all isSpaceChar = true := ih.mp h
      by_cases hsp : isSpaceChar c <;> simp [hsp, hcs]
    | cons r rs =>
      have hcs : ¬ cs.all isSpaceChar = true := by
        intro hall
        rw [ih.mpr hall] at h
        cases h
      simp [hcs]

theorem pySplit_no_comma (l : List Char) (h : ∀ c ∈ l, ¬ c = ',') :
    pySplit ',' l = [l] := by
  induction l with
  | nil => rfl
  | cons c cs ih =>
    have hc : ¬ c = ',' := h c (by simp)
    have hcs : pySplit ',' cs = [cs] := ih (fun x hx => h x (by simp [hx]))
    simp only [pySplit]
    rw [if_neg hc, hcs]

theorem pySplit_singleton (l t : List Char) (h : pySplit ',' l = [t]) : t = l := by
  induction l generalizing t with
  | nil =>
    simp only [pySplit] at h
    cases h
    rfl
  | cons c cs ih =>
    simp only [pySplit] at h
    by_cases hc : c = ','
    · rw [if_pos hc] at h
      cases hsp : pySplit ',' cs with
      | nil => exact absurd hsp (pySplit_ne_nil ',' cs)
      | cons a as =>
        rw [hsp] at h
        cases h
    · rw [if_neg hc] at h
      cases hsp : pySplit ',' cs with
      | nil => exact absurd hsp (pySplit_ne_nil ',' cs)
      | cons a as =>
        rw [hsp] at h
        injection h with h1 h2
        subst h2
        have ha : a = cs := ih a hsp
        rw [← h1, ha]

theorem pyStripRight_cons_of_ne_nil (c : Char) (cs r : List Char)
    (h : pyStripRight cs = r) (hr : r ≠ []) :
    pyStripRight (c :: cs) = c :: r := by
  cases r with
  | nil => exact absurd rfl hr
  | cons r0 rs0 => simp [pyStripRight, h]

theorem pySplit_cons_of_ne (c : Char) (cs t : List Char) (ts : List (List Char))
    (hc : ¬ c = ',') (hcs : pySplit ',' cs = t :: ts) :
    pySplit ',' (c :: cs) = (c :: t) :: ts := by
  simp only [pySplit]
  rw [if_neg hc, hcs]

theorem pySplit_pyStripLeft (l : List Char) :
    pySplit ',' (pyStripLeft l) = (pySplit ',' l).modifyHead pyStripLeft := by
  induction l with
  | nil => rfl
  | cons c cs ih =>
    by_cases h : isSpaceChar c
    · have hc : ¬ c = ',' := ne_comma_of_isSpaceChar c h
      have hdrop : pyStripLeft (c :: cs) = pyStripLeft cs := by
        simp [pyStripLeft, List.dropWhile_cons, h]
      rw [hdrop, ih]
      simp only [pySplit]
      rw [if_neg hc]
      cases hcs : pySplit ',' cs with
      | nil => exact absurd hcs (pySplit_ne_nil ',' cs)
      | cons t ts =>
        simp only [List.modifyHead]
        have : pyStripLeft (c :: t) = pyStripLeft t := by
          simp [pyStripLeft, List.dropWhile_cons, h]
        rw [this]
    · have hkeep : pyStripLeft (c :: cs) = c :: cs := by
        simp [pyStripLeft, List.dropWhile_cons, h]
      rw [hkeep]
      simp only [pySplit]
      by_cases hc : c = ','
      · rw [if_pos hc]
        cases hcs : pySplit ',' cs with
        | nil => exact absurd hcs (pySplit_ne_nil ',' cs)
        | cons t ts => simp [List.modifyHead, pyStripLeft]
      · rw [if_neg hc]
        cases hcs : pySplit ',' cs with
        | nil => exact absurd hcs (pySplit_ne_nil ',' cs)
        | cons t ts =>
          simp only [List.modifyHead]
          have : pyStripLeft (c :: t) = c :: t := by
            simp [pyStripLeft, List.dropWhile_cons, h]
          rw [this]

theorem pySplit_pyStripRight (l : List Char) :
    pySplit ',' (pyStripRight l) = modifyLastTok pyStripRight (pySplit ',' l) := by
  induction l with
  | nil => rfl
  | cons c cs ih =>
    cases h : pyStripRight cs with
    | nil =>
      have hall : cs.all isSpaceChar = true := (pyStripRight_eq_nil_iff cs).mp h
      have hnos : pySplit ',' cs = [cs] := by
        refine pySplit_no_comma cs (fun x hx => ?_)
        exact ne_comma_of_isSpaceChar x (by
          have := List.all_eq_true.mp hall x hx
          simpa using this)
      by_cases hsp : isSpaceChar c
      · have hc : ¬ c = ',' := ne_comma_of_isSpaceChar c hsp
        have hsr : pyStripRight (c :: cs) = [] := by
          simp [pyStripRight, h, hsp]
        rw [hsr]
        have hsplit : pySplit ',' (c :: cs) = [c :: cs] := by
          simp only [pySplit]
          rw [if_neg hc, hnos]
        rw [hsplit]
        simp [pySplit, modifyLastTok, hsr]
      · by_cases hc : c = ','
        · subst hc
          have hsr : pyStripRight (',' :: cs) = [','] := by
            simp [pyStripRight, h, isSpaceChar]
          rw [hsr]
          have hsplit : pySplit ',' (',' :: cs) = [] :: pySplit ',' cs := by
            simp [pySplit]
          rw [hsplit, hnos]
          simp [pySplit, modifyLastTok, h]
        · have hsr : pyStripRight (c :: cs) = [c] := by
            simp [pyStripRight, h, hsp]
          rw [hsr]
          have hsplit : pySplit ',' (c :: cs) = [c :: cs] := by
            simp only [pySplit]
            rw [if_neg hc, hnos]
          rw [hsplit]
          simp [pySplit, hc, modifyLastTok, hsr]
    | cons r0 rs0 =>
      have hcr : pyStripRight (c :: cs) = c :: r0 :: rs0 :=
        pyStripRight_cons_of_ne_nil c cs (r0 :: rs0) h (by simp)
      rw [hcr]
      by_cases hc : c = ','
      · subst hc
        have hsplit1 : pySplit ',' (',' :: r0 :: rs0) = [] :: pySplit ',' (r0 :: rs0) := by
          simp [pySplit]
        have hsplit2 : pySplit ',' (',' :: cs) = [] :: pySplit ',' cs := by
          simp [pySplit]
        rw [hsplit1, hsplit2, ← h, ih]
        cases hcs : pySplit ',' cs with
        | nil => exact absurd hcs (pySplit_ne_nil ',' cs)
        | cons t ts => simp [modifyLastTok]
      · have hr : pySplit ',' (r0 :: rs0) = modifyLastTok pyStripRight (pySplit ',' cs) := by
          rw [← h]
          exact ih
        cases hcs : pySplit ',' cs with
        | nil => exact absurd hcs (pySplit_ne_nil ',' cs)
        | cons t ts =>
          rw [hcs] at hr
          cases ts with
          | nil =>
            have ht : t = cs := pySplit_singleton cs t hcs
            have hr2 : pySplit ',' (r0 :: rs0) = (r0 :: rs0) :: [] := by
              rw [hr]
              simp only [modifyLastTok]
              rw [ht, h]
            have hstep : pyStripRight (c :: t) = c :: r0 :: rs0 := by
              rw [ht]
              exact hcr
            rw [pySplit_cons_of_ne c (r0 :: rs0) (r0 :: rs0) [] hc hr2,
                pySplit_cons_of_ne c cs t [] hc hcs]
            simp [modifyLastTok, hstep]
          | cons t1 ts1 =>
            have hr2 : pySplit ',' (r0 :: rs0) = t :: modifyLastTok pyStripRight (t1 :: ts1) := by
              rw [hr]
              simp [modifyLastTok]
            rw [pySplit_cons_of_ne c (r0 :: rs0) t (modifyLastTok pyStripRight (t1 :: ts1)) hc hr2,
                pySplit_cons_of_ne c cs t (t1 :: ts1) hc hcs]
            simp [modifyLastTok]

theorem pyStripLeft_idem (l : List Char) : pyStripLeft (pyStripLeft l) = pyStripLeft l := by
  induction l with
  | nil => rfl
  | cons c cs ih =>
    by_cases h : isSpaceChar c
    · simp only [pyStripLeft, List.dropWhile_cons, h, if_true] at *
      exact ih
    · simp [pyStripLeft, List.dropWhile_cons, h]

theorem pyStripRight_idem (l : List Char) : pyStripRight (pyStripRight l) = pyStripRight l := by
  induction l with
  | nil => rfl
  | cons c cs ih =>
    cases h : pyStripRight cs with
    | nil =>
      by_cases hsp : isSpaceChar c
      · simp [pyStripRight, h, hsp]
      · simp [pyStripRight, h, hsp]
    | cons r0 rs0 =>
      have hcr : pyStripRight (c :: cs) = c :: r0 :: rs0 :=
        pyStripRight_cons_of_ne_nil c cs (r0 :: rs0) h (by simp)
      rw [hcr]
      have hidem : pyStripRight (r0 :: rs0) = r0 :: rs0 := by
        have h2 := ih
        rw [h] at h2
        exact h2
      exact pyStripRight_cons_of_ne_nil c (r0 :: rs0) (r0 :: rs0) hidem (by simp)

theorem stripLeft_stripRight_comm (l : List Char) :
    pyStripLeft (pyStripRight l) = pyStripRight (pyStripLeft l) := by
  induction l with
  | nil => rfl
  | cons c cs ih =>
    by_cases hsp : isSpaceChar c
    · have hleft : pyStripLeft (c :: cs) = pyStripLeft cs := by
        simp [pyStripLeft, List.dropWhile_cons, hsp]
      rw [hleft]
      cases h : pyStripRight cs with
      | nil =>
        have hall : cs.all isSpaceChar = true := (pyStripRight_eq_nil_iff cs).mp h
        have hsr : pyStripRight (c :: cs) = [] := by
          simp [pyStripRight, h, hsp]
        rw [hsr, pyStripLeft_eq_nil_of_all cs hall]
        rfl
      | cons r0 rs0 =>
        have hcr : pyStripRight (c :: cs) = c :: r0 :: rs0 :=
          pyStripRight_cons_of_ne_nil c cs (r0 :: rs0) h (by simp)
        rw [hcr]
        have : pyStripLeft (c :: r0 :: rs0) = pyStripLeft (r0 :: rs0) := by
          simp [pyStripLeft, List.dropWhile_cons, hsp]
        rw [this, ← h, ih]
    · have hleft : pyStripLeft (c :: cs) = c :: cs := by
        simp [pyStripLeft, List.dropWhile_cons, hsp]
      rw [hleft]
      cases h : pyStripRight (c :: cs) with
      | nil =>
        have : (c :: cs).all isSpaceChar = true := (pyStripRight_eq_nil_iff (c :: cs)).mp h
        simp only [List.all_cons, Bool.and_eq_true] at this
        exact absurd this.1 hsp
      | cons r0 rs0 =>
        have hne : pyStripRight (c :: cs) ≠ [] := by rw [h]; simp
        have hhead : r0 :: rs0 = pyStripRight (c :: cs) := h.symm
        rw [← h]
        cases hcs : pyStripRight cs with
        | nil =>
          have hc1 : pyStripRight (c :: cs) = [c] := by
            simp [pyStripRight, hcs, hsp]
          rw [hc1]
          simp [pyStripLeft, List.dropWhile_cons, hsp]
        | cons a as =>
          have hc2 : pyStripRight (c :: cs) = c :: a :: as :=
            pyStripRight_cons_of_ne_nil c cs (a :: as) hcs (by simp)
          rw [hc2]
          simp [pyStripLeft, List.dropWhile_cons, hsp]

theorem pyStrip_pyStripLeft (l : List Char) : pyStrip (pyStripLeft l) = pyStrip l := by
  unfold pyStrip
  rw [← stripLeft_stripRight_comm, pyStripLeft_idem, stripLeft_stripRight_comm]

theorem pyStrip_pyStripRight (l : List Char) : pyStrip (pyStripRight l) = pyStrip l := by
  unfold pyStrip
  rw [pyStripRight_idem]

theorem mapStrip_modifyHead (xs : List (List Char)) :
    (xs.modifyHead pyStripLeft).map pyStrip = xs.map pyStrip := by
  cases xs with
  | nil => rfl
  | cons x rest => simp [List.modifyHead, pyStrip_pyStripLeft]

theorem mapStrip_modifyLastTok (xs : List (List Char)) :
    (modifyLastTok pyStripRight xs).map pyStrip = xs.map pyStrip := by
  induction xs with
  | nil => rfl
  | cons t ts ih =>
    cases ts with
    | nil => simp [modifyLastTok, pyStrip_pyStripRight]
    | cons t1 ts1 =>
      have : modifyLastTok pyStripRight (t :: t1 :: ts1)
          = t :: modifyLastTok pyStripRight (t1 :: ts1) := by
        simp [modifyLastTok]
      rw [this]
      simp only [List.map_cons]
      rw [ih]
      simp

theorem mapStrip_pySplit_pyStrip (l : List Char) :
    (pySplit ',' (pyStrip l)).map pyStrip = (pySplit ',' l).map pyStrip := by
  show (pySplit ',' (pyStripLeft (pyStripRight l))).map pyStrip = (pySplit ',' l).map pyStrip
  rw [pySplit_pyStripLeft, mapStrip_modifyHead, pySplit_pyStripRight, mapStrip_modifyLastTok]

/-- The parse the source performs (whole-string strip, upper, split, strip
each token, filter) equals the parse the spec describes (upper, split, strip
each token, filter): upper-casing commutes with stripping and splitting, and
the initial whole-string strip is absorbed by the per-token strips. -/
theorem parse_worker_choice_eq_claim_parse (out : String) :
    Orchestrator.parse_worker_choice out = Orchestrator.claim_parse out := by
  simp only [Orchestrator.parse_worker_choice, Orchestrator.claim_parse]
  have htok : (pySplit ',' (pyUpper (pyStrip out.toList))).map (fun t => (pyStrip t).asString)
      = (pySplit ',' (pyUpper out.toList)).map (fun t => (pyStrip t).asString) := by
    rw [← pyStrip_pyUpper]
    have h1 : (pySplit ',' (pyStrip (pyUpper out.toList))).map pyStrip
        = (pySplit ',' (pyUpper out.toList)).map pyStrip := mapStrip_pySplit_pyStrip _
    calc (pySplit ',' (pyStrip (pyUpper out.toList))).map (fun t => (pyStrip t).asString)
        = ((pySplit ',' (pyStrip (pyUpper out.toList))).map pyStrip).map
            (fun u => u.asString) := by rw [List.map_map]; rfl
      _ = ((pySplit ',' (pyUpper out.toList)).map pyStrip).map (fun u => u.asString) := by
            rw [h1]
      _ = (pySplit ',' (pyUpper out.toList)).map (fun t => (pyStrip t).asString) := by
            rw [List.map_map]
            rfl
  rw [htok]

/-- On the error path the completion/tool loop has appended only the turns
of its completed tool rounds: the history grows by assistant-blocks and
tool-result turns alone, never by an assistant text turn. -/
theorem runLoop_error_extra (callTool : String → String → Except String String)
    (completions : List SimpleAgent.CompletionStep) :
    ∀ h e h2, SimpleAgent.runLoop callTool completions h = (.error e, h2) →
    ∃ extra, h2 = h ++ extra ∧ ∀ t ∈ extra,
      (∃ bs, t = ⟨"assistant", SimpleAgent.HContent.blocks bs⟩) ∨
      (∃ rs, t = ⟨"user", SimpleAgent.HContent.toolResults rs⟩) := by
  induction completions with
  | nil =>
    intro h e h2 hrun
    simp only [SimpleAgent.runLoop, Prod.mk.injEq] at hrun
    exact ⟨[], by simp [hrun.2.symm], by simp⟩
  | cons step rest ih =>
    intro h e h2 hrun
    cases step with
    | raise m =>
      simp only [SimpleAgent.runLoop, Prod.mk.injEq] at hrun
      exact ⟨[], by simp [hrun.2.symm], by simp⟩
    | final blocks =>
      simp only [SimpleAgent.runLoop, Prod.mk.injEq] at hrun
      cases hrun.1
    | toolCall blocks =>
      simp only [SimpleAgent.runLoop] at hrun
      cases hcol : SimpleAgent.collectResults callTool blocks with
      | error e0 =>
        rw [hcol] at hrun
        simp only [Prod.mk.injEq] at hrun
        exact ⟨[], by simp [hrun.2.symm], by simp⟩
      | ok results =>
        rw [hcol] at hrun
        obtain ⟨extra, hex, hall⟩ := ih _ e h2 hrun
        refine ⟨⟨"assistant", SimpleAgent.HContent.blocks blocks⟩
            :: ⟨"user", SimpleAgent.HContent.toolResults results⟩ :: extra, ?_, ?_⟩
        · rw [hex]
          simp
        · intro t ht
          simp only [List.mem_cons] at ht
          rcases ht with rfl | rfl | ht
          · exact Or.inl ⟨blocks, rfl⟩
          · exact Or.inr ⟨results, rfl⟩
          · exact hall t ht

/-! ## Claim theorems -/

/-- C8: the price parser is total: `"$1,234"` parses to `1234` (dollar signs
and commas stripped, then `int(...)`), any input whose sanitized form `int`
rejects (such as `"N/A"`) yields `0` through the bare `except`, and every
successful inner parse is returned unchanged — `parse_price` never raises. -/
theorem parse_price_total_spec :
    FlightSearch.parse_price "$1,234" = 1234 ∧
    FlightSearch.parse_price "N/A" = 0 ∧
    (∀ s n, int_of_string (removeChar ',' (removeChar '$' s.toList)) = .ok n →
      FlightSearch.parse_price s = n) ∧
    (∀ s e, int_of_string (removeChar ',' (removeChar '$' s.toList)) = .error e →
      FlightSearch.parse_price s = 0) := by
  refine ⟨by decide, by decide, ?_, ?_⟩
  · intro s n h
    unfold FlightSearch.parse_price
    rw [h]
  · intro s e h
    unfold FlightSearch.parse_price
    rw [h]

/-- Witness for C8 at the concrete malformed input `"N/A"`. -/
theorem parse_price_total_spec_witness : FlightSearch.parse_price "N/A" = 0 :=
  parse_price_total_spec.2.2.2 "N/A"
    (.valueError "invalid literal for int() with base 10: N/A") rfl

/-- C9: `calculate_price_range` is total: the empty list takes the early
guard to the all-zero range, and every list yields a successful result — the
`min`, `max` and the division by `len(flights)` are only evaluated on
non-empty lists, so nothing raises. -/
theorem calculate_price_range_total :
    FlightSearch.calculate_price_range [] = .ok ⟨0, 0, 0⟩ ∧
    ∀ flights, ∃ r, FlightSearch.calculate_price_range flights = .ok r := by
  constructor
  · rfl
  · intro flights
    cases flights with
    | nil => exact ⟨⟨0, 0, 0⟩, rfl⟩
    | cons f fs =>
      refine ⟨?_, ?_⟩
      case _ => exact ⟨(fs.map (fun g => FlightSearch.parse_price g.price)).foldl min (FlightSearch.parse_price f.price),
        (fs.map (fun g => FlightSearch.parse_price g.price)).foldl max (FlightSearch.parse_price f.price),
        pyRound2 ((((f :: fs).map (fun g => FlightSearch.parse_price g.price)).sum : ℚ) / (((f :: fs).length : ℚ)))⟩
      case _ =>
        have hlen : ((fs.length : ℚ) + 1) ≠ 0 := by positivity
        simp [FlightSearch.calculate_price_range, pyMin, pyMax, pyDiv, hlen]
        rfl

/-- C3 (the source side of the claim): with a price bound supplied,
`filter_flights_by_criteria` evaluates `f.price <= max_price` — a Python
`str <= int` comparison — so it raises `TypeError` on the first offer and the
`except` clause converts the whole request to the error envelope; the filter
the claim (and the sibling functions and the docstring) describe would have
kept the `$200` offer under the `250` bound. -/
theorem filter_price_type_error :
    FlightSearch.filter_flights_by_criteria
        (.ok [⟨"Delta 123", "8:00 AM", "1:20 PM", "5 hr 20 min", 0, "$200", true⟩])
        (some 250) none none false
      = .failure "Flight filtering failed: TypeError: unsupported comparison between str and int" ∧
    FlightSearch.filter_flights_claim
        [⟨"Delta 123", "8:00 AM", "1:20 PM", "5 hr 20 min", 0, "$200", true⟩]
        (some 250) none none false
      = [⟨"Delta 123", "8:00 AM", "1:20 PM", "5 hr 20 min", 0, "$200", true⟩] := by
  constructor
  · rfl
  · decide

/-- C10: `analyze_tweet_sentiment` rejects any input whose `success` flag is
false or whose `tweets` entry is missing or empty with the fixed error
envelope; in particular the zero-match output of `search_topics` (success
with an empty tweet list) is rejected rather than analyzed. -/
theorem analyze_requires_tweets :
    (∀ d : XApi.TweetsData,
      d.success = false ∨ d.tweets = none ∨ d.tweets = some [] →
      XApi.analyze_tweet_sentiment d = .failure "No valid tweets data provided") ∧
    (∀ b q, b ≠ "" →
      XApi.search_topics (some b) (.ok []) q
        = .success q [] 0 (some "No tweets found matching the query") ∧
      XApi.analyze_tweet_sentiment (XApi.toTweetsData (XApi.search_topics (some b) (.ok []) q))
        = .failure "No valid tweets data provided") := by
  constructor
  · intro d h
    rcases h with h | h | h <;>
      simp [XApi.analyze_tweet_sentiment, XApi.tweetsFalsy, h]
  · intro b q hb
    have hs : XApi.search_topics (some b) (.ok []) q
        = .success q [] 0 (some "No tweets found matching the query") := by
      unfold XApi.search_topics XApi.search_topics_body XApi.get_twitter_client
      dsimp only
      rw [if_neg hb]
      rfl
    refine ⟨hs, ?_⟩
    rw [hs]
    rfl

/-- C4, counterexample: the weather adapter does not return an error
envelope — with no `WEATHER_API_KEY` configured, `check_weather` raises
`ValueError` past its boundary even though the provider would have answered
normally. -/
theorem check_weather_raises :
    Weather.check_weather none (.ok (200, "clear sky"))
      = .error (.valueError "WEATHER_API_KEY environment variable is not set") := rfl

/-- C4, amended: the flight-search and social-media adapters catch every
exception of their bodies and convert it to the `success: false` envelope,
but the weather adapter raises `ValueError` when its credential is missing
and propagates any provider exception unchanged. -/
theorem adapters_envelope_except_weather :
    (∀ date fA tA provider mr e,
      FlightSearch.search_flights_body date fA tA provider mr = .error e →
      FlightSearch.search_flights date fA tA provider mr
        = .failure (FlightSearch.searchErrMsg e)) ∧
    (∀ bearer provider q e,
      XApi.search_topics_body bearer provider q = .error e →
      XApi.search_topics bearer provider q = .failure (excMsg e)) ∧
    (∀ resp, Weather.check_weather none resp
      = .error (.valueError "WEATHER_API_KEY environment variable is not set")) ∧
    (∀ k e resp, k ≠ "" → resp = .error e →
      Weather.check_weather (some k) resp = .error e) := by
  refine ⟨?_, ?_, ?_, ?_⟩
  · intro date fA tA provider mr e h
    unfold FlightSearch.search_flights
    rw [h]
  · intro bearer provider q e h
    unfold XApi.search_topics
    rw [h]
  · intro resp
    rfl
  · intro k e resp hk hr
    subst hr
    unfold Weather.check_weather
    dsimp only
    rw [if_neg hk]
    rfl

/-- Witness for C4 at concrete inputs: a malformed date becomes the
invalid-date envelope of the flight adapter, and a provider exception
escapes the weather adapter unchanged. -/
theorem adapters_envelope_except_weather_witness :
    FlightSearch.search_flights "next friday" "ewr" "lax" (.ok ([], "typical")) 10
      = .failure "Invalid date format. Use YYYY-MM-DD: time data next friday does not match format %Y-%m-%d" ∧
    Weather.check_weather (some "key") (.error (.otherError "connection refused"))
      = .error (.otherError "connection refused") :=
  ⟨adapters_envelope_except_weather.1 "next friday" "ewr" "lax" (.ok ([], "typical")) 10
      (.valueError "time data next friday does not match format %Y-%m-%d") rfl,
   adapters_envelope_except_weather.2.2.2 "key" (.otherError "connection refused")
      (.error (.otherError "connection refused")) (by decide) rfl⟩

/-- C5: `BaseWorker.process` and `SimpleFlubAgent.process` always hand their
caller a string: a successful completion is returned as is, and any raised
exception is converted to a textual error response instead of propagating. -/
theorem process_always_returns_text :
    (∀ name runner m c s,
      runner (Orchestrator.build_worker_input name m c) = .ok s →
      Orchestrator.worker_process name runner m c = s) ∧
    (∀ name runner m c e,
      runner (Orchestrator.build_worker_input name m c) = .error e →
      Orchestrator.worker_process name runner m c
        = "Error processing request in " ++ name ++ ": " ++ e) ∧
    (∀ completions callTool h m e h2,
      SimpleAgent.runLoop callTool completions (h ++ [⟨"user", .str m⟩]) = (.error e, h2) →
      SimpleAgent.simple_process completions callTool h m
        = ("Error processing request: " ++ e, h2)) ∧
    (∀ completions callTool h m,
      ∃ s h2, SimpleAgent.simple_process completions callTool h m = (s, h2)) := by
  refine ⟨?_, ?_, ?_, ?_⟩
  · intro name runner m c s h
    unfold Orchestrator.worker_process
    rw [h]
  · intro name runner m c e h
    unfold Orchestrator.worker_process
    rw [h]
  · intro completions callTool h m e h2 hrun
    simp only [SimpleAgent.simple_process]
    rw [hrun]
  · intro completions callTool h m
    cases hrun : SimpleAgent.runLoop callTool completions (h ++ [⟨"user", .str m⟩]) with
    | mk r h2 =>
      cases r with
      | ok s =>
        exact ⟨s, h2, by simp only [SimpleAgent.simple_process]; rw [hrun]⟩
      | error e =>
        exact ⟨_, h2, by simp only [SimpleAgent.simple_process]; rw [hrun]⟩

/-- Witness for C5: a worker whose completion raises still returns the
textual error response. -/
theorem process_always_returns_text_witness :
    Orchestrator.worker_process "worker1" (fun _ => .error "boom") "hi" none
      = "Error processing request in worker1: boom" :=
  process_always_returns_text.2.1 "worker1" (fun _ => .error "boom") "hi" none "boom" rfl

/-- Updating a sender entry keeps the key set: present keys are overwritten
in place, absent keys are appended. -/
theorem setAgent_map_fst (st : Server.ServerState) (s : String) (h : List SimpleAgent.HTurn) :
    (Server.setAgent st s h).map Prod.fst
      = if (Server.findAgent st s).isSome then st.map Prod.fst else st.map Prod.fst ++ [s] := by
  induction st with
  | nil => simp [Server.setAgent, Server.findAgent]
  | cons p rest ih =>
    obtain ⟨s0, h0⟩ := p
    by_cases hs : s0 = s
    · simp [Server.setAgent, Server.findAgent, hs]
    · simp [Server.setAgent, Server.findAgent, hs, ih]
      split <;> simp

/-- Updating a sender entry grows the dictionary only on first contact. -/
theorem setAgent_length (st : Server.ServerState) (s : String) (h : List SimpleAgent.HTurn) :
    (Server.setAgent st s h).length
      = if (Server.findAgent st s).isSome then st.length else st.length + 1 := by
  have := setAgent_map_fst st s h
  have hlen : (Server.setAgent st s h).length = ((Server.setAgent st s h).map Prod.fst).length := by
    simp
  rw [hlen, this]
  split <;> simp

/-- C7, counterexample: after one query from sender `"A"` and a `/clear` for
`"A"`, the agent entry survives with an emptied history, so `/health` still
reports one active conversation although no sender has a recorded turn. -/
theorem health_after_clear_counterexample :
    Server.health (Server.clear_history
        (Server.query [SimpleAgent.CompletionStep.final [SimpleAgent.Block.text "hey"]]
          (fun _ _ => .ok "") [] (some "A") (some "hi")).2
        (some "A")).2 = 1 ∧
    Server.activeWithTurns (Server.clear_history
        (Server.query [SimpleAgent.CompletionStep.final [SimpleAgent.Block.text "hey"]]
          (fun _ _ => .ok "") [] (some "A") (some "hi")).2
        (some "A")).2 = 0 := by
  constructor <;> rfl

/-- C7, amended: `/health` reports `len(agents)` — the number of distinct
senders that ever issued a valid query — not the number of senders with a
recorded turn: `/clear` empties a present sender's history while keeping its
entry (and its contribution to the count), and a valid query grows the count
exactly when the sender had no entry yet. -/
theorem health_counts_agent_entries :
    (∀ st : Server.ServerState, Server.health st = st.length) ∧
    (∀ st sender, ((Server.clear_history st sender).2).map Prod.fst = st.map Prod.fst) ∧
    (∀ completions callTool st (s q : String), s ≠ "" → q ≠ "" →
      Server.health (Server.query completions callTool st (some s) (some q)).2
        = if (Server.findAgent st s).isSome then Server.health st else Server.health st + 1) := by
  refine ⟨fun st => rfl, ?_, ?_⟩
  · intro st sender
    unfold Server.clear_history
    split
    · rfl
    · cases hf : Server.findAgent st (sender.getD "") with
      | some h0 =>
        simp only
        rw [hf]
        simp [setAgent_map_fst, hf]
      | none =>
        simp only
        rw [hf]
  · intro completions callTool st s q hs hq
    have hfal : (Server.falsyStr (some s) || Server.falsyStr (some q)) = false := by
      simp [Server.falsyStr, hs, hq]
    simp only [Server.query, hfal]
    simp only [Bool.false_eq_true, if_false, Server.health]
    rw [setAgent_length]
    rfl

/-- Witness for C7 (amended): the first valid query from a fresh sender
raises the health count from zero to one. -/
theorem health_counts_agent_entries_witness :
    Server.health (Server.query [SimpleAgent.CompletionStep.final [SimpleAgent.Block.text "hey"]]
        (fun _ _ => .ok "") [] (some "A") (some "hi")).2 = 1 :=
  health_counts_agent_entries.2.2 [SimpleAgent.CompletionStep.final [SimpleAgent.Block.text "hey"]]
    (fun _ _ => .ok "") [] "A" "hi" (by decide) (by decide)

/-- C1: the routing parse is the spec's upper-case / split-on-comma / trim /
filter-to-known-names parse (unknown tokens silently dropped), and the
dispatch follows the number of valid names: zero gives the direct fallback
answer, exactly one gives that worker's response computed over the
conversation context, two or more dispatch to all of them and return exactly
the one synthesized response when synthesis succeeds. -/
theorem routing_classification_dispatch (env : Orchestrator.RouteEnv)
    (history : List Orchestrator.Turn) (message out : String)
    (hc : env.classify = .ok out) :
    Orchestrator.parse_worker_choice out = Orchestrator.claim_parse out ∧
    (Orchestrator.parse_worker_choice out = [] →
      (Orchestrator.route_message env history message).1
        = Orchestrator.fallback_response env message (Orchestrator.contextAfter history message)) ∧
    (∀ w r, Orchestrator.parse_worker_choice out = [w] →
      env.workerProcess w message (Orchestrator.contextAfter history message) = .ok r →
      (Orchestrator.route_message env history message).1 = r) ∧
    (∀ s, 2 ≤ (Orchestrator.parse_worker_choice out).length →
      env.synthesize message (Orchestrator.contextAfter history message)
          (Orchestrator.workerOutputs env message (Orchestrator.contextAfter history message)
            (Orchestrator.parse_worker_choice out)) = .ok s →
      (Orchestrator.route_message env history message).1 = s) := by
  refine ⟨parse_worker_choice_eq_claim_parse out, ?_, ?_, ?_⟩
  · intro hz
    simp only [Orchestrator.route_message, Orchestrator.contextAfter]
    rw [hc]
    dsimp only
    rw [hz]
  · intro w r hw hr
    simp only [Orchestrator.contextAfter] at hr
    simp only [Orchestrator.route_message]
    rw [hc]
    dsimp only
    rw [hw]
    dsimp only
    rw [hr]
  · intro s h2 hs
    simp only [Orchestrator.contextAfter] at hs
    simp only [Orchestrator.route_message]
    rw [hc]
    dsimp only
    cases hp : Orchestrator.parse_worker_choice out with
    | nil => rw [hp] at h2; simp at h2
    | cons w ws =>
      cases ws with
      | nil => rw [hp] at h2; simp at h2
      | cons w2 ws2 =>
        rw [hp] at hs
        dsimp only
        simp only [Orchestrator.process_parallel]
        rw [hs]

/-- Witness for C1: a classification output naming two workers (lower case,
with spaces) dispatches to both and returns the synthesized answer. -/
theorem routing_classification_dispatch_witness :
    (Orchestrator.route_message
        ⟨.ok "worker2, WORKER3", fun n _ _ => .ok ("answer from " ++ n),
         fun _ _ _ => .ok "synthesized answer", fun _ _ => .ok "fallback answer"⟩
        [] "plan a trip").1 = "synthesized answer" :=
  (routing_classification_dispatch
      ⟨.ok "worker2, WORKER3", fun n _ _ => .ok ("answer from " ++ n),
       fun _ _ _ => .ok "synthesized answer", fun _ _ => .ok "fallback answer"⟩
      [] "plan a trip" "worker2, WORKER3" rfl).2.2.2
    "synthesized answer" (by decide) rfl

/-- C2: in a parallel batch a worker failure is rendered as
`"name: Error - msg"` in the collected outputs without aborting the batch —
synthesis always runs over the outputs of all dispatched workers, failures
included — and when the synthesis completion itself raises, the router
returns the concatenated per-worker outputs behind a count message instead
of failing. -/
theorem parallel_failure_tolerance :
    (∀ n e, Orchestrator.render_output n (.error e) = n ++ ": Error - " ++ e) ∧
    (∀ env m c names s,
      env.synthesize m c (Orchestrator.workerOutputs env m c names) = .ok s →
      Orchestrator.process_parallel env m c names = s) ∧
    (∀ env m c names e,
      env.synthesize m c (Orchestrator.workerOutputs env m c names) = .error e →
      names ≠ [] →
      Orchestrator.process_parallel env m c names
        = "Processed with " ++ toString names.length ++ " workers. Results:\n\n"
          ++ joinSep "\n\n" (Orchestrator.workerOutputs env m c names)) := by
  refine ⟨fun n e => rfl, ?_, ?_⟩
  · intro env m c names s h
    simp only [Orchestrator.process_parallel]
    rw [h]
  · intro env m c names e h hne
    simp only [Orchestrator.process_parallel]
    rw [h]
    have : (Orchestrator.workerOutputs env m c names).isEmpty = false := by
      cases names with
      | nil => exact absurd rfl hne
      | cons a as => simp [Orchestrator.workerOutputs]
    rw [this]
    simp

/-- Witness for C2: of two dispatched workers one raises; synthesis also
raises, and the router returns both outputs — the success and the rendered
error — behind the count message. -/
theorem parallel_failure_tolerance_witness :
    Orchestrator.process_parallel
        ⟨.ok "WORKER1,WORKER2",
         fun n _ _ => if n = "WORKER1" then .ok "sunny and 75" else .error "boom",
         fun _ _ _ => .error "synthesis down",
         fun _ _ => .ok "fallback"⟩
        "plan my trip" "No previous conversation." ["WORKER1", "WORKER2"]
      = "Processed with 2 workers. Results:\n\nWORKER1: sunny and 75\n\nWORKER2: Error - boom" :=
  parallel_failure_tolerance.2.2
    ⟨.ok "WORKER1,WORKER2",
     fun n _ _ => if n = "WORKER1" then .ok "sunny and 75" else .error "boom",
     fun _ _ _ => .error "synthesis down",
     fun _ _ => .ok "fallback"⟩
    "plan my trip" "No previous conversation." ["WORKER1", "WORKER2"]
    "synthesis down" rfl (by decide)

/-- C6, counterexample: when the first completion of
`SimpleFlubAgent.process` raises, the error text is returned to the caller
but no assistant turn is appended — the history ends after the user turn, so
processing does not always append an assistant turn equal to the returned
string. -/
theorem simple_process_error_no_assistant_turn :
    ¬ ((SimpleAgent.simple_process [SimpleAgent.CompletionStep.raise "boom"]
          (fun _ _ => .ok "") [] "hi").2
        = [⟨"user", .str "hi"⟩,
           ⟨"assistant", .str (SimpleAgent.simple_process [SimpleAgent.CompletionStep.raise "boom"]
              (fun _ _ => .ok "") [] "hi").1⟩]) := by
  decide

/-- C6, amended: the orchestrator's `route_message` appends, on every path
including errors and fallback, exactly one user turn and one assistant turn
whose content is the returned string; `SimpleFlubAgent.process` does so only
on a successful completion path (each tool round additionally appending an
assistant turn and a tool-result user turn), while on its exception path it
returns the error text without appending an assistant turn for it: the
history keeps the user turn and the two appends of every completed tool
round — assistant-blocks and tool-result turns only — but no turn records
the returned string. -/
theorem history_append_discipline :
    (∀ env h m,
      (Orchestrator.route_message env h m).2
        = h ++ [⟨"user", m⟩, ⟨"assistant", (Orchestrator.route_message env h m).1⟩]) ∧
    (∀ callTool h m blocks,
      SimpleAgent.simple_process [SimpleAgent.CompletionStep.final blocks] callTool h m
        = (SimpleAgent.concatTexts blocks,
           h ++ [⟨"user", .str m⟩, ⟨"assistant", .str (SimpleAgent.concatTexts blocks)⟩])) ∧
    (∀ completions callTool h m e h2,
      SimpleAgent.runLoop callTool completions (h ++ [⟨"user", .str m⟩]) = (.error e, h2) →
      SimpleAgent.simple_process completions callTool h m
          = ("Error processing request: " ++ e, h2) ∧
      ∃ extra, h2 = (h ++ [⟨"user", .str m⟩]) ++ extra ∧
        ∀ t ∈ extra, (∃ bs, t = ⟨"assistant", SimpleAgent.HContent.blocks bs⟩) ∨
          (∃ rs, t = ⟨"user", SimpleAgent.HContent.toolResults rs⟩)) ∧
    (∀ callTool blocks rest h rs,
      SimpleAgent.collectResults callTool blocks = .ok rs →
      SimpleAgent.runLoop callTool (SimpleAgent.CompletionStep.toolCall blocks :: rest) h
        = SimpleAgent.runLoop callTool rest
            (h ++ [⟨"assistant", .blocks blocks⟩, ⟨"user", .toolResults rs⟩])) := by
  refine ⟨?_, ?_, ?_, ?_⟩
  · intro env h m
    simp only [Orchestrator.route_message]
    split <;> simp
  · intro callTool h m blocks
    simp [SimpleAgent.simple_process, SimpleAgent.runLoop]
  · intro completions callTool h m e h2 hrun
    constructor
    · simp only [SimpleAgent.simple_process]
      rw [hrun]
    · exact runLoop_error_extra callTool completions _ e h2 hrun
  · intro callTool blocks rest h rs hres
    simp only [SimpleAgent.runLoop]
    rw [hres]

/-- Witness for C6 (amended) at a concrete run: the completed tool round's
two appends persist past the raising second completion, and the returned
error text is not recorded in the history. -/
theorem history_append_discipline_witness :
    SimpleAgent.simple_process
        [SimpleAgent.CompletionStep.toolCall [SimpleAgent.Block.toolUse "t1" "check_weather" "london"],
         SimpleAgent.CompletionStep.raise "boom"]
        (fun _ _ => .ok "sunny") [] "hello"
      = ("Error processing request: boom",
         [⟨"user", .str "hello"⟩,
          ⟨"assistant", .blocks [SimpleAgent.Block.toolUse "t1" "check_weather" "london"]⟩,
          ⟨"user", .toolResults [("t1", "sunny")]⟩]) :=
  (history_append_discipline.2.2.1
    [SimpleAgent.CompletionStep.toolCall [SimpleAgent.Block.toolUse "t1" "check_weather" "london"],
     SimpleAgent.CompletionStep.raise "boom"]
    (fun _ _ => .ok "sunny") [] "hello" "boom"
    [⟨"user", .str "hello"⟩,
     ⟨"assistant", .blocks [SimpleAgent.Block.toolUse "t1" "check_weather" "london"]⟩,
     ⟨"user", .toolResults [("t1", "sunny")]⟩]
    rfl).1

/-- Witness for C10: the zero-match search output for a concrete query is
rejected by the analysis. -/
theorem analyze_requires_tweets_witness :
    XApi.search_topics (some "token") (.ok []) "flight delays LAX"
      = .success "flight delays LAX" [] 0 (some "No tweets found matching the query") ∧
    XApi.analyze_tweet_sentiment
        (XApi.toTweetsData (XApi.search_topics (some "token") (.ok []) "flight delays LAX"))
      = .failure "No valid tweets data provided" :=
  analyze_requires_tweets.2 "token" "flight delays LAX" (by decide)

end Flub
